import Mathlib

/-!
A verification development for the spotify-downloader repository.

The TypeScript sources are embedded shallowly:

* pure functions (URL parsing, the video-ranking comparator, pagination
  bookkeeping) become Lean functions translated branch by branch;
* JavaScript regular expressions are replaced by explicit scanners over
  character lists that implement the same leftmost-match, ordered-choice,
  greedy semantics (greediness is exact here because in every quantified
  position of the two patterns the repeated character class is disjoint
  from the character that must follow);
* JavaScript numbers are embedded as exact integers and rationals; the
  numeric literals 0.2, 1.3 and 0.7 are read as the exact rationals they
  denote, and divisions whose denominator can be zero in the source are
  rewritten multiplicatively so that the IEEE Infinity/NaN comparison
  outcomes of the source are preserved at a zero denominator;
* code that can throw is embedded with Except, and a try/catch block
  becomes a total function from the Except value;
* the event-driven settlement of the download promise is embedded as a
  fold over the sequence of subprocess events;
* Array.prototype.sort with a user comparator is embedded as a stable
  insertion sort driven by the comparator (the comparator of the source
  is not a consistent total preorder, so ECMAScript leaves the exact
  permutation implementation-defined; the embedding fixes the standard
  stable-sort reading).
-/

namespace SpotifyDL

/-! ## Character classes used by the regular expressions of the source -/

/-- The class [a-z]. -/
def isLowerAZ (c : Char) : Bool :=
  ('a' ≤ c && c ≤ 'z')

/-- The class [a-zA-Z0-9], the id alphabet of both URL grammars. -/
def isIdChar (c : Char) : Bool :=
  ('a' ≤ c && c ≤ 'z') || ('A' ≤ c && c ≤ 'Z') || ('0' ≤ c && c ≤ '9')

/-- The class [0-9]. -/
def isDigitChar (c : Char) : Bool :=
  ('0' ≤ c && c ≤ '9')

/-- The JavaScript word class backslash-w, that is [A-Za-z0-9_]. -/
def isWordChar (c : Char) : Bool :=
  isIdChar c || c = '_'

/-- The JavaScript whitespace class backslash-s. -/
def isJsSpace (c : Char) : Bool :=
  c = ' ' || c = '\t' || c = '\n' || c = '\x0b' || c = '\x0c' || c = '\r' ||
  c = Char.ofNat 0xa0 || c = Char.ofNat 0x1680 ||
  (Char.ofNat 0x2000 ≤ c && c ≤ Char.ofNat 0x200a) ||
  c = Char.ofNat 0x2028 || c = Char.ofNat 0x2029 || c = Char.ofNat 0x202f ||
  c = Char.ofNat 0x205f || c = Char.ofNat 0x3000 || c = Char.ofNat 0xfeff

/-- ECMAScript line terminators, the characters that the dot of a regular
expression without the s flag does not match. -/
def isLineTerm (c : Char) : Bool :=
  c = '\n' || c = '\r' || c = Char.ofNat 0x2028 || c = Char.ofNat 0x2029

/-! ## Scanning primitives -/

/-- Consume a literal prefix, returning the remainder on success. -/
def matchLit : List Char → List Char → Option (List Char)
  | [], cs => some cs
  | _ :: _, [] => none
  | l :: ls, c :: cs => if c = l then matchLit ls cs else none

/-- Greedy match of one or more characters of a class, returning the run and
the remainder; fails on an empty run.  This is exact for a regex quantifier
whenever the class is disjoint from what the pattern requires next. -/
def takeWhile1 (p : Char → Bool) (cs : List Char) :
    Option (List Char × List Char) :=
  match cs.takeWhile p with
  | [] => none
  | r => some (r, cs.dropWhile p)

/-! ## The URL resolver (parseSpotifyUrl in src/clients/spotify/index.ts)

The source tries two regular expressions in order:

  web grammar (anchored only at the end):
    https?://(open.)?spotify.com/(intl-[a-z]+/)?([a-z]+)/([a-zA-Z0-9]x22)(?.*)?$

  uri grammar (anchored at both ends):
    spotify:([a-z]+):([a-zA-Z0-9]x22)

A successful match yields the pair of captures (kind segment, id). -/

/-- Tail of the web grammar from the kind segment on: ([a-z]+) / id22 query?$ -/
def webTail3 (cs : List Char) : Option (String × String) :=
  match takeWhile1 isLowerAZ cs with
  | none => none
  | some (kind, cs1) =>
    match cs1 with
    | [] => none
    | c :: cs2 =>
      if c = '/' then
        let idChars := cs2.take 22
        if idChars.length = 22 && idChars.all isIdChar then
          match cs2.drop 22 with
          | [] => some (⟨kind⟩, ⟨idChars⟩)
          | q :: qs =>
            if q = '?' then
              if qs.all (fun c => !isLineTerm c) then some (⟨kind⟩, ⟨idChars⟩)
              else none
            else none
        else none
      else none

/-- The optional locale segment (intl-[a-z]+/)? of the web grammar, with
full ordered-choice backtracking into the continuation. -/
def webTail2 (cs : List Char) : Option (String × String) :=
  (Option.bind (matchLit (String.data ("intl-")) cs) (fun cs1 =>
    Option.bind (takeWhile1 isLowerAZ cs1) (fun r =>
      match r.2 with
      | [] => none
      | c :: cs2 => if c = '/' then webTail3 cs2 else none))).orElse
    (fun _ => webTail3 cs)

/-- The fixed host segment spotify.com/ of the web grammar. -/
def webTail1 (cs : List Char) : Option (String × String) :=
  Option.bind (matchLit (String.data ("spotify.com/")) cs) webTail2

/-- The optional subdomain (open.)? of the web grammar. -/
def webTail0 (cs : List Char) : Option (String × String) :=
  (Option.bind (matchLit (String.data ("open.")) cs) webTail1).orElse
    (fun _ => webTail1 cs)

/-- Attempt the web grammar at the current position: https?:// then host. -/
def matchWebAt (cs : List Char) : Option (String × String) :=
  Option.bind (matchLit (String.data ("http")) cs) (fun cs1 =>
    (Option.bind (matchLit (String.data ("s://")) cs1) webTail0).orElse
      (fun _ => Option.bind (matchLit (String.data ("://")) cs1) webTail0))

/-- Leftmost search for the web grammar: the source regex is not anchored at
the start, so String.prototype.match scans for the first matching position. -/
def searchWeb : List Char → Option (String × String)
  | [] => matchWebAt []
  | c :: rest =>
    match matchWebAt (c :: rest) with
    | some r => some r
    | none => searchWeb rest

/-- The uri grammar, anchored at both ends: spotify:([a-z]+):id22 -/
def matchUri (cs : List Char) : Option (String × String) :=
  Option.bind (matchLit (String.data ("spotify:")) cs) (fun cs1 =>
    Option.bind (takeWhile1 isLowerAZ cs1) (fun r =>
      match r.2 with
      | [] => none
      | c :: cs2 =>
        if c = ':' then
          if cs2.length = 22 && cs2.all isIdChar then some (⟨r.1⟩, ⟨cs2⟩)
          else none
        else none))

/-- The SpotifyUrlType union of types/client-spotify.d.ts. -/
inductive SpotifyUrlType
  | playlist
  | track
  | album
  | artist
  | unknown
deriving DecidableEq, Repr

/-- The SpotifyUrlInfo record of types/client-spotify.d.ts. -/
structure SpotifyUrlInfo where
  type : SpotifyUrlType
  id : String
  originalUrl : String
deriving DecidableEq, Repr

/-- The validTypes array of parseSpotifyUrl. -/
def validTypes : List String :=
  ["playlist", "track", "album", "artist"]

/-- Map a kind segment to the member of the union it names. -/
def stringToType (s : String) : SpotifyUrlType :=
  if s = "playlist" then .playlist
  else if s = "track" then .track
  else if s = "album" then .album
  else if s = "artist" then .artist
  else .unknown

/-- parseSpotifyUrl of src/clients/spotify/index.ts: try the web grammar,
fall back to the uri grammar, and on a match keep the captured id while
guarding the kind segment against the validTypes list. -/
def parseSpotifyUrl (url : String) : SpotifyUrlInfo :=
  match (searchWeb url.data).orElse (fun _ => matchUri url.data) with
  | none => { type := .unknown, id := "", originalUrl := url }
  | some m =>
      { type := if validTypes.contains m.1 then stringToType m.1 else .unknown
        id := m.2
        originalUrl := url }

/-! ## Track metadata and pagination
(src/clients/spotify/playlist.ts and src/clients/spotify/album.ts) -/

/-- An entry of the artists array of a track payload. -/
structure ArtistRef where
  id : String
  name : String
  href : String
deriving DecidableEq, Repr

/-- The TrackInfo record of types/client-spotify.d.ts. -/
structure TrackInfo where
  id : String
  name : String
  href : String
  type : String
  artists : List ArtistRef
deriving DecidableEq, Repr

/-- An element of the items array of a playlist tracks response, which wraps
the track payload in a record. -/
structure PlaylistTrackItem where
  track : TrackInfo
deriving DecidableEq, Repr

/-- The fields of the playlist tracks API response that the source reads. -/
structure PlaylistTracksResponse where
  total : Nat
  offset : Nat
  items : List PlaylistTrackItem
deriving DecidableEq, Repr

/-- The fields of the album tracks API response that the source reads; here
the items are the track payloads themselves. -/
structure AlbumTracksResponse where
  total : Nat
  offset : Nat
  items : List TrackInfo
deriving DecidableEq, Repr

/-- parseTracks of src/clients/spotify/index.ts: keep only the entries whose
type field is the string track. -/
def parseTracks (tracks : List TrackInfo) : List TrackInfo :=
  tracks.filter (fun t => t.type = "track")

/-- The PlaylistResult record of src/clients/spotify/playlist.ts. -/
structure PlaylistResult where
  total : Nat
  length : Nat
  offset : Nat
  next : Option Nat
  tracks : List TrackInfo
deriving DecidableEq, Repr

/-- The pure tail of SpotifyPlaylist.tracks: how the method builds its
PlaylistResult from the pagination offset it was called with and the JSON
payload the API returned.  The next field follows the source expression
offset + 10 > playlist.total ? null : offset + 10. -/
def playlistTracks (offset : Nat) (resp : PlaylistTracksResponse) :
    PlaylistResult :=
  { total := resp.total
    length := resp.items.length
    offset := resp.offset
    next := if offset + 10 > resp.total then none else some (offset + 10)
    tracks := parseTracks (resp.items.map (fun t => t.track)) }

/-- The pure tail of SpotifyAlbum.tracks, built the same way from the album
payload (whose items are mapped through the identity in the source). -/
def albumTracks (offset : Nat) (resp : AlbumTracksResponse) : PlaylistResult :=
  { total := resp.total
    length := resp.items.length
    offset := resp.offset
    next := if offset + 10 > resp.total then none else some (offset + 10)
    tracks := parseTracks (resp.items.map (fun t => t)) }

/-! ## Video candidates and the ranking comparator
(sortVideos in src/index.ts) -/

/-- The fields of a yt-search video result that sortVideos and the
orchestrator read.  The ago field is an optional recency string such as
3 years ago; the comparator tests it against undefined. -/
structure Video where
  url : String
  views : Nat
  seconds : Nat
  ago : Option String
deriving DecidableEq, Repr

/-- Value of a digit string, the parseInt of the first capture. -/
def digitsToNat (ds : List Char) : Nat :=
  ds.foldl (fun acc c => 10 * acc + (c.toNat - ('0').toNat)) 0

/-- One attempt of the recency regex (digits, whitespace, word, whitespace,
the literal ago) at the current position.  Greediness is exact because the
digit, whitespace and word classes are pairwise disjoint here. -/
def matchAgoAt (cs : List Char) : Option (Nat × String) :=
  Option.bind (takeWhile1 isDigitChar cs) (fun d =>
    Option.bind (takeWhile1 isJsSpace d.2) (fun s1 =>
      Option.bind (takeWhile1 isWordChar s1.2) (fun w =>
        Option.bind (takeWhile1 isJsSpace w.2) (fun s2 =>
          (matchLit (String.data ("ago")) s2.2).map
            (fun _ => (digitsToNat d.1, ⟨w.1⟩))))))

/-- Leftmost search for the recency pattern, as String.prototype.match does
for an unanchored regex. -/
def searchAgo : List Char → Option (Nat × String)
  | [] => matchAgoAt []
  | c :: rest =>
    match matchAgoAt (c :: rest) with
    | some r => some r
    | none => searchAgo rest

/-- The switch of getTimeValue: convert a value and lowercased unit to days.
The hour and minute divisions are exact rationals. -/
def timeUnitToDays (value : Nat) (unit : String) : ℚ :=
  if unit = "year" ∨ unit = "years" then (value : ℚ) * 365
  else if unit = "month" ∨ unit = "months" then (value : ℚ) * 30
  else if unit = "week" ∨ unit = "weeks" then (value : ℚ) * 7
  else if unit = "day" ∨ unit = "days" then (value : ℚ)
  else if unit = "hour" ∨ unit = "hours" then (value : ℚ) / 24
  else if unit = "minute" ∨ unit = "minutes" then (value : ℚ) / (24 * 60)
  else (value : ℚ)

/-- The toLowerCase call on the captured unit.  The unit consists of word
characters only, so the ASCII lowering of Char.toLower is exact. -/
def lowerString (s : String) : String :=
  ⟨s.data.map Char.toLower⟩

/-- getTimeValue of sortVideos: 0 when the recency string does not contain
the pattern, otherwise the day count of the first match. -/
def getTimeValue (agoString : String) : ℚ :=
  match searchAgo agoString.data with
  | none => 0
  | some r => timeUnitToDays r.1 (lowerString r.2)

/-- The comparator passed to Array.prototype.sort by sortVideos, branch by
branch.  The literal 0.2 is the exact rational.  The two comparisons of
viewsRatio = b.views / a.views with 1.3 and 0.7 are written multiplicatively
over the integer view counts; for a.views = 0 this coincides with the
Infinity/NaN outcomes of the floating-point division in the source. -/
def cmpVideos (a b : Video) : ℚ :=
  match a.ago, b.ago with
  | none, none =>
    let viewsDiff : ℚ := (b.views : ℚ) - (a.views : ℚ)
    if |viewsDiff| < (b.views : ℚ) * 0.2 then (a.seconds : ℚ) - (b.seconds : ℚ)
    else viewsDiff
  | none, some _ => 1
  | some _, none => -1
  | some aAgo, some bAgo =>
    if 10 * b.views > 13 * a.views ∨ 10 * b.views < 7 * a.views then
      (b.views : ℚ) - (a.views : ℚ)
    else
      let aDays := getTimeValue aAgo
      let bDays := getTimeValue bAgo
      if |aDays - bDays| < 30 then (a.seconds : ℚ) - (b.seconds : ℚ)
      else aDays - bDays

/-- The relation under which an element stays in front during the embedded
stable sort: a nonpositive comparator value keeps a before b. -/
def cmpLe (a b : Video) : Prop :=
  cmpVideos a b ≤ 0

instance : DecidableRel cmpLe := fun a b => by
  unfold cmpLe; infer_instance

/-- sortVideos of src/index.ts: Array.prototype.sort with the comparator,
embedded as the standard stable insertion sort. -/
def sortVideos (videos : List Video) : List Video :=
  List.insertionSort cmpLe videos

/-! ## The per-track orchestrator and the bulk download
(searchInYoutubeAndDownload and downloadMassive in src/index.ts)

The two collaborator calls of the orchestrator are embedded as an
environment of functions returning Except values: an error value stands
for a rejected promise, that is an exception at the corresponding await. -/

/-- The part of a yt-search response the orchestrator reads. -/
structure SearchResult where
  videos : List Video
deriving DecidableEq, Repr

/-- The collaborators of the orchestrator: the video search and the audio
fetch, each of which may reject. -/
structure YoutubeEnv where
  search : String → Except String SearchResult
  downloadMp3 : String → String → Except String Unit

/-- What one orchestrator run reports for its track. -/
inductive Outcome
  | success
  | noVideo
  | caught (e : String)
deriving DecidableEq, Repr

/-- The query template of searchInYoutubeAndDownload.  Reading the name of
artists[0] throws a TypeError when the artists array is empty; the fixed
message stands for that exception value. -/
def buildQuery (track : TrackInfo) : Except String String :=
  match track.artists with
  | [] => Except.error ("TypeError: artists[0] is undefined")
  | a :: _ => Except.ok (track.name ++ " - " ++ a.name ++ " lyric")

/-- The body of the try block of searchInYoutubeAndDownload: build the
query, search, take the first raw video, fetch it.  The first component
records the downloadMp3 invocations (url and directory) made before the
body finished or threw; the second is the outcome or the thrown value. -/
def searchBodyRun (env : YoutubeEnv) (track : TrackInfo) (dir : String) :
    List (String × String) × Except String Outcome :=
  match buildQuery track with
  | .error e => ([], .error e)
  | .ok query =>
    match env.search query with
    | .error e => ([], .error e)
    | .ok result =>
      match result.videos.head? with
      | none => ([], .ok .noVideo)
      | some video =>
        match env.downloadMp3 video.url dir with
        | .error e => ([(video.url, dir)], .error e)
        | .ok _ => ([(video.url, dir)], .ok .success)

/-- searchInYoutubeAndDownload of src/index.ts: the body wrapped in the
try/catch.  The promise of the method is the Except in the second
component; the catch arm converts a thrown value into a logged outcome and
a normal resolution. -/
def searchInYoutubeAndDownload (env : YoutubeEnv) (track : TrackInfo)
    (dir : String) : List (String × String) × Except String Outcome :=
  match searchBodyRun env track dir with
  | (tr, .ok o) => (tr, .ok o)
  | (tr, .error e) => (tr, .ok (.caught e))

/-- The outcome an orchestrator run settles on for a track. -/
def searchOutcome (env : YoutubeEnv) (track : TrackInfo) (dir : String) :
    Outcome :=
  match searchBodyRun env track dir with
  | (_, .ok o) => o
  | (_, .error e) => .caught e

/-- Promise.all: resolves with all values, rejects with the first
rejection. -/
def promiseAll : List (Except String Outcome) → Except String (List Outcome)
  | [] => .ok []
  | x :: xs =>
    match x with
    | .error e => .error e
    | .ok v =>
      match promiseAll xs with
      | .error e => .error e
      | .ok vs => .ok (v :: vs)

/-- One run of downloadMassive: the execution log of every orchestrator
invocation in execution order, and the value or rejection of the promise
returned to the caller. -/
structure MassiveRun where
  execLog : List (String × Outcome)
  ret : Except String (List Outcome)
deriving Repr

/-- The processing of one downloadMassive level around the run of the
deeper levels: addPromises awaits the recursion (so a rejection there
propagates before the current factories run), then the current page's
factories are executed and joined by Promise.all. -/
def massivePageStep (env : YoutubeEnv) (dir : String) (page : PlaylistResult)
    (sub : MassiveRun) : MassiveRun :=
  match sub.ret with
  | .error e => { execLog := sub.execLog, ret := .error e }
  | .ok _ =>
    { execLog := sub.execLog ++
        page.tracks.map (fun t => (t.id, searchOutcome env t dir))
      ret := promiseAll (page.tracks.map
        (fun t => (searchInYoutubeAndDownload env t dir).2)) }

/-- downloadMassive of src/index.ts over an already-fetched stream of
pages: the current page's factories are registered; while the page has a
next offset the remaining pages are processed to completion (addPromises
awaits the recursive call before the Promise.all of the current level
runs); finally the current page's factories are executed and joined.  The
rest argument is the sequence of pages the paginator yields for the
successive next offsets; an exhausted stream ends the recursion. -/
def downloadMassiveRun (env : YoutubeEnv) (dir : String) :
    PlaylistResult → List PlaylistResult → MassiveRun
  | page, [] => massivePageStep env dir page { execLog := [], ret := .ok [] }
  | page, p :: ps =>
    massivePageStep env dir page
      (if page.next = none then { execLog := [], ret := .ok [] }
       else downloadMassiveRun env dir p ps)

/-- The pages downloadMassive visits: the current one, and — while a next
offset is present — the following ones from the stream. -/
def visitedPages : PlaylistResult → List PlaylistResult → List PlaylistResult
  | page, [] => [page]
  | page, p :: ps =>
    if page.next = none then [page] else page :: visitedPages p ps

/-! ## The audio fetch promise (downloadMp3 of the youtube client)

downloadMp3 spawns a subprocess and wires exactly two callbacks into the
promise executor: the close handler resolves with true when the exit code
is 0 (and does nothing otherwise), and the stderr data handler rejects
with the text of the chunk.  A promise settles at most once: later calls
to resolve or reject are ignored.  A run of the subprocess is embedded as
the sequence of events the two handlers observe. -/

/-- An observable event of the spawned subprocess. -/
inductive ProcEvent
  | close (code : Int)
  | stderrData (data : String)
deriving DecidableEq, Repr

/-- The settlement state of the promise returned by downloadMp3. -/
inductive PromiseState
  | pending
  | resolved (value : Bool)
  | rejected (reason : String)
deriving DecidableEq, Repr

/-- The effect of one subprocess event on the promise, following the two
handlers of the source; a settled promise absorbs every further event. -/
def downloadMp3Step (st : PromiseState) (e : ProcEvent) : PromiseState :=
  match st with
  | .pending =>
    match e with
    | .close code => if code = 0 then .resolved true else .pending
    | .stderrData data => .rejected data
  | st => st

/-- The settlement of the downloadMp3 promise after a sequence of
subprocess events. -/
def downloadMp3Run (events : List ProcEvent) : PromiseState :=
  events.foldl downloadMp3Step .pending

/-! ## Inputs used to state the claims -/

/-- The characters an optional query suffix contributes to a web URL. -/
def qtailOf : Option String → List Char
  | some q => '?' :: q.data
  | none => []

/-- The characters an optional locale segment contributes, prefixed to the
rest of the path. -/
def locTailOf : Option String → List Char → List Char
  | some l, restK => String.data ("intl-") ++ (l.data ++ ('/' :: restK))
  | none, restK => restK

/-- A web-style catalog URL assembled from the constituents of the web
grammar: scheme, optional open subdomain, host, optional locale segment,
kind segment, 22-character id, optional query suffix with its question
mark. -/
def mkWebUrl (secure openSub : Bool) (locale : Option String)
    (kind id : String) (query : Option String) : String :=
  ⟨(if secure then String.data ("https://") else String.data ("http://")) ++
    ((if openSub then String.data ("open.") else []) ++
      (String.data ("spotify.com/") ++
        locTailOf locale (kind.data ++ ('/' :: (id.data ++ qtailOf query)))))⟩

/-- A uri-style catalog reference: the scheme, the kind segment, a colon
and the 22-character id. -/
def mkUri (kind id : String) : String :=
  ⟨String.data ("spotify:") ++ (kind.data ++ (':' :: id.data))⟩

/-- The graph of the resolver, for stating totality and determinism. -/
def ParsesTo (s : String) (r : SpotifyUrlInfo) : Prop :=
  parseSpotifyUrl s = r

/-- Candidate with a known recency, 100 views and a long duration. -/
def cexA : Video :=
  { url := "uA", views := 100, seconds := 300, ago := some ("1 day ago") }

/-- Candidate with the same known recency, 72 views (a 39% relative
difference against 100, so more than 30%) and a short duration. -/
def cexB : Video :=
  { url := "uB", views := 72, seconds := 100, ago := some ("1 day ago") }

/-- Candidate without recency, 100 views, long duration. -/
def cexNA : Video :=
  { url := "nA", views := 100, seconds := 300, ago := none }

/-- Candidate without recency, 83 views (the difference 17 is below 20% of
the larger count 100 but not below 20% of 83), short duration. -/
def cexNB : Video :=
  { url := "nB", views := 83, seconds := 100, ago := none }

/-- First raw search result: slightly fewer views, much longer. -/
def cexW1 : Video :=
  { url := "u1", views := 100, seconds := 300, ago := none }

/-- Second raw search result: similar views, much shorter, so the
comparator ranks it above cexW1. -/
def cexW2 : Video :=
  { url := "u2", views := 101, seconds := 100, ago := none }

/-- A track descriptor for the orchestrator runs. -/
def cexTrack : TrackInfo :=
  { id := "t1", name := "Song", href := "h", type := "track"
    artists := [{ id := "a1", name := "Artist", href := "h" }] }

/-- An environment whose search yields the two candidates above in raw
order and whose audio fetch succeeds. -/
def cexEnv : YoutubeEnv :=
  { search := fun _ => .ok { videos := [cexW1, cexW2] }
    downloadMp3 := fun _ _ => .ok () }

/-- The ordering invariant of the two recency groups: whenever x precedes
y, an unknown recency of x forces an unknown recency of y; equivalently,
the candidates with a known recency form a prefix. -/
def agoR (x y : Video) : Prop :=
  x.ago = none → y.ago = none

/-! ## Claims about pagination -/

/-- C3 (counterexample): the claim says the next offset is present iff
offset + 10 < total; but at offset 10 of a collection with total 20 the
code produces the next offset 20 although 10 + 10 < 20 fails. -/
theorem claim_C3_counterexample :
    (playlistTracks 10 { total := 20, offset := 10, items := [] }).next = some 20
    ∧ ¬ ((10 : ℕ) + 10 < 20) := by
  exact ⟨rfl, by decide⟩

/-- C3 (amended): for both pagination operations the next offset is present
iff offset + 10 ≤ total (the source tests offset + 10 > total for absence),
the next offset strictly exceeds the offset argument when present, and a
collection with total 25 yields next values 10, 20, absent at the offsets
0, 10, 20. -/
theorem claim_C3_next_boundary (offset : Nat) (presp : PlaylistTracksResponse)
    (aresp : AlbumTracksResponse) :
    ((playlistTracks offset presp).next ≠ none ↔ offset + 10 ≤ presp.total)
    ∧ (∀ n, (playlistTracks offset presp).next = some n → offset < n)
    ∧ ((albumTracks offset aresp).next ≠ none ↔ offset + 10 ≤ aresp.total)
    ∧ (∀ n, (albumTracks offset aresp).next = some n → offset < n)
    ∧ (playlistTracks 0 { total := 25, offset := 0, items := [] }).next = some 10
    ∧ (playlistTracks 10 { total := 25, offset := 10, items := [] }).next = some 20
    ∧ (playlistTracks 20 { total := 25, offset := 20, items := [] }).next = none := by
  refine ⟨?_, ?_, ?_, ?_, rfl, rfl, rfl⟩ <;>
    by_cases h : offset + 10 > presp.total <;>
    by_cases h2 : offset + 10 > aresp.total <;>
    simp [playlistTracks, albumTracks, h, h2] <;> omega

/-- C3 (witness): the boundary theorem applied at offset 0 of the total-25
collection. -/
theorem claim_C3_witness :
    (playlistTracks 0 { total := 25, offset := 0, items := [] }).next ≠ none
    ∧ (0 : ℕ) < 10 :=
  ⟨(claim_C3_next_boundary 0 { total := 25, offset := 0, items := [] }
      { total := 25, offset := 0, items := [] }).1.mpr (by decide),
   (claim_C3_next_boundary 0 { total := 25, offset := 0, items := [] }
      { total := 25, offset := 0, items := [] }).2.1 10 rfl⟩

/-! ## Claims about the URL resolver: totality and determinism -/

/-- C9: parseSpotifyUrl is total and deterministic: every input string is
related to a result carrying the original url, and the relation is a
function. -/
theorem claim_C9_total_deterministic :
    (∀ s : String, ∃ r, ParsesTo s r ∧ r.originalUrl = s)
    ∧ (∀ (s : String) (r₁ r₂ : SpotifyUrlInfo),
        ParsesTo s r₁ → ParsesTo s r₂ → r₁ = r₂) := by
  constructor
  · intro s
    refine ⟨parseSpotifyUrl s, rfl, ?_⟩
    unfold parseSpotifyUrl
    cases (searchWeb s.data).orElse (fun _ => matchUri s.data) <;> rfl
  · intro s r₁ r₂ h₁ h₂
    rw [← h₁, ← h₂]

/-- C9 (witness): the two components at a concrete string. -/
theorem claim_C9_witness :
    (∃ r, ParsesTo ("spotify:track:AAAAAAAAAAAAAAAAAAAAAA") r
      ∧ r.originalUrl = ("spotify:track:AAAAAAAAAAAAAAAAAAAAAA"))
    ∧ parseSpotifyUrl ("abc") = parseSpotifyUrl ("abc") :=
  ⟨claim_C9_total_deterministic.1 ("spotify:track:AAAAAAAAAAAAAAAAAAAAAA"),
   claim_C9_total_deterministic.2 ("abc") _ _ rfl rfl⟩

/-! ## Claims about the settlement of the downloadMp3 promise -/

theorem downloadMp3_absorb (evs : List ProcEvent) :
    ∀ st : PromiseState, st ≠ .pending → evs.foldl downloadMp3Step st = st := by
  induction evs with
  | nil => intro st _; rfl
  | cons e evs ih =>
    intro st h
    have hstep : downloadMp3Step st e = st := by
      cases st <;> simp_all [downloadMp3Step]
    rw [List.foldl_cons, hstep, ih st h]

/-- C10: the downloadMp3 promise settles only by resolving with true on an
exit code 0 or by rejecting with a stderr chunk; a run whose events are
nonzero exit codes only, with no stderr data, stays pending forever. -/
theorem claim_C10_promise (events : List ProcEvent) :
    (downloadMp3Run events = .pending
      ↔ ∀ e ∈ events, ∃ c, c ≠ 0 ∧ e = ProcEvent.close c)
    ∧ (∀ v, downloadMp3Run events = .resolved v
        → v = true ∧ ProcEvent.close 0 ∈ events)
    ∧ (∀ m, downloadMp3Run events = .rejected m
        → ProcEvent.stderrData m ∈ events)
    ∧ ((∀ s, ProcEvent.stderrData s ∉ events) → ProcEvent.close 0 ∈ events
        → downloadMp3Run events = .resolved true) := by
  induction events with
  | nil =>
    refine ⟨by simp [downloadMp3Run], ?_, ?_, ?_⟩ <;> simp [downloadMp3Run]
  | cons e evs ih =>
    obtain ⟨ih1, ih2, ih3, ih4⟩ := ih
    cases e with
    | close c =>
      by_cases hc : c = 0
      · subst hc
        have habs : downloadMp3Run (ProcEvent.close 0 :: evs) = .resolved true := by
          rw [downloadMp3Run, List.foldl_cons]
          exact downloadMp3_absorb evs _ (by simp [downloadMp3Step])
        refine ⟨?_, ?_, ?_, fun _ _ => habs⟩
        · rw [habs]
          constructor
          · intro h; cases h
          · intro h
            rcases h (ProcEvent.close 0) (by simp) with ⟨c, hc, heq⟩
            cases heq; exact absurd rfl hc
        · intro v hv
          rw [habs] at hv
          cases hv
          exact ⟨rfl, by simp⟩
        · intro m hm
          rw [habs] at hm
          cases hm
      · have hrun : downloadMp3Run (ProcEvent.close c :: evs) = downloadMp3Run evs := by
          rw [downloadMp3Run, List.foldl_cons, downloadMp3Run]
          congr 1
          simp [downloadMp3Step, hc]
        refine ⟨?_, ?_, ?_, ?_⟩
        · rw [hrun, ih1]
          constructor
          · intro h e he
            rcases List.mem_cons.mp he with rfl | he
            · exact ⟨c, hc, rfl⟩
            · exact h e he
          · intro h e he
            exact h e (List.mem_cons_of_mem _ he)
        · intro v hv
          rw [hrun] at hv
          rcases ih2 v hv with ⟨hv1, hv2⟩
          exact ⟨hv1, List.mem_cons_of_mem _ hv2⟩
        · intro m hm
          rw [hrun] at hm
          exact List.mem_cons_of_mem _ (ih3 m hm)
        · intro hs h0
          rw [hrun]
          refine ih4 (fun s hmem => hs s (List.mem_cons_of_mem _ hmem)) ?_
          rcases List.mem_cons.mp h0 with heq | h0
          · cases heq; exact absurd rfl hc
          · exact h0
    | stderrData s =>
      have habs : downloadMp3Run (ProcEvent.stderrData s :: evs) = .rejected s := by
        rw [downloadMp3Run, List.foldl_cons]
        exact downloadMp3_absorb evs _ (by simp [downloadMp3Step])
      refine ⟨?_, ?_, ?_, ?_⟩
      · rw [habs]
        constructor
        · intro h; cases h
        · intro h
          rcases h (ProcEvent.stderrData s) (by simp) with ⟨c, _, heq⟩
          cases heq
      · intro v hv; rw [habs] at hv; cases hv
      · intro m hm
        rw [habs] at hm
        cases hm
        simp
      · intro hs _
        exact absurd (by simp : ProcEvent.stderrData s ∈ ProcEvent.stderrData s :: evs)
          (hs s)

/-- C10 (witness): a run that closes with exit code 0 resolves with true,
and a run with only a nonzero exit code stays pending. -/
theorem claim_C10_witness :
    downloadMp3Run [ProcEvent.close 0] = .resolved true
    ∧ downloadMp3Run [ProcEvent.close 1] = .pending :=
  ⟨(claim_C10_promise [ProcEvent.close 0]).2.2.2 (by simp) (by simp),
   (claim_C10_promise [ProcEvent.close 1]).1.mpr
     (fun e he => ⟨1, by decide, by simpa using he⟩)⟩

/-! ## Concrete comparator evaluations used by the counterexamples -/

theorem gtv_one_day : getTimeValue ("1 day ago") = 1 := rfl

theorem cmp_cexA_cexB : cmpVideos cexA cexB = 200 := by
  show (if (10 * 72 > 13 * 100 ∨ 10 * 72 < 7 * 100 : Prop)
      then ((72:ℕ):ℚ) - ((100:ℕ):ℚ)
      else if |getTimeValue ("1 day ago") - getTimeValue ("1 day ago")| < 30
        then ((300:ℕ):ℚ) - ((100:ℕ):ℚ)
        else getTimeValue ("1 day ago") - getTimeValue ("1 day ago")) = 200
  rw [if_neg (by norm_num), if_pos (by rw [gtv_one_day]; norm_num)]
  norm_num

theorem cmp_cexB_cexA : cmpVideos cexB cexA = 28 := by
  show (if (10 * 100 > 13 * 72 ∨ 10 * 100 < 7 * 72 : Prop)
      then ((100:ℕ):ℚ) - ((72:ℕ):ℚ)
      else if |getTimeValue ("1 day ago") - getTimeValue ("1 day ago")| < 30
        then ((100:ℕ):ℚ) - ((300:ℕ):ℚ)
        else getTimeValue ("1 day ago") - getTimeValue ("1 day ago")) = 28
  rw [if_pos (by norm_num)]
  norm_num

theorem cmp_cexNA_cexNB : cmpVideos cexNA cexNB = -17 := by
  show (if |((83:ℕ):ℚ) - ((100:ℕ):ℚ)| < ((83:ℕ):ℚ) * 0.2
      then ((300:ℕ):ℚ) - ((100:ℕ):ℚ)
      else ((83:ℕ):ℚ) - ((100:ℕ):ℚ)) = -17
  rw [if_neg (by norm_num)]
  norm_num

theorem cmp_cexNB_cexNA : cmpVideos cexNB cexNA = -200 := by
  show (if |((100:ℕ):ℚ) - ((83:ℕ):ℚ)| < ((100:ℕ):ℚ) * 0.2
      then ((100:ℕ):ℚ) - ((300:ℕ):ℚ)
      else ((100:ℕ):ℚ) - ((83:ℕ):ℚ)) = -200
  rw [if_pos (by norm_num)]
  norm_num

theorem cmp_cexW1_cexW2 : cmpVideos cexW1 cexW2 = 200 := by
  show (if |((101:ℕ):ℚ) - ((100:ℕ):ℚ)| < ((101:ℕ):ℚ) * 0.2
      then ((300:ℕ):ℚ) - ((100:ℕ):ℚ)
      else ((101:ℕ):ℚ) - ((100:ℕ):ℚ)) = 200
  rw [if_pos (by norm_num)]
  norm_num

/-! ## Claims about the ranking comparator -/

/-- C4 (counterexample): cexA and cexB both carry a known recency and view
counts 100 and 72, whose max over min exceeds 1.3, so the claim requires a
symmetric decision by views with the higher-view cexA first; but the
comparator ranks cexB first when the pair is presented as (cexA, cexB)
(positive value) while also refusing to rank cexB first when presented as
(cexB, cexA) (positive value again), so the decision depends on argument
order and does not follow max over min. -/
theorem claim_C4_counterexample :
    10 * max cexA.views cexB.views > 13 * min cexA.views cexB.views
    ∧ cexA.views > cexB.views
    ∧ cmpVideos cexA cexB > 0
    ∧ cmpVideos cexB cexA > 0 := by
  refine ⟨by decide, by decide, ?_, ?_⟩
  · rw [cmp_cexA_cexB]; norm_num
  · rw [cmp_cexB_cexA]; norm_num

/-- C4 (amended): for candidates with known recency the comparator decides
by view count exactly when the second argument's views exceed 1.3 times
the first argument's, or fall below 0.7 times them — a ratio test relative
to the first argument, hence not symmetric in the pair; otherwise the
recency/duration rules apply and views are not consulted. -/
theorem claim_C4_views_rule (a b : Video) (x y : String)
    (hax : a.ago = some x) (hby : b.ago = some y) :
    (10 * b.views > 13 * a.views ∨ 10 * b.views < 7 * a.views →
      cmpVideos a b = (b.views : ℚ) - (a.views : ℚ))
    ∧ (¬ (10 * b.views > 13 * a.views ∨ 10 * b.views < 7 * a.views) →
      cmpVideos a b =
        if |getTimeValue x - getTimeValue y| < 30
          then (a.seconds : ℚ) - (b.seconds : ℚ)
          else getTimeValue x - getTimeValue y) := by
  unfold cmpVideos
  rw [hax, hby]
  dsimp only
  constructor
  · intro h; rw [if_pos h]
  · intro h; rw [if_neg h]

/-- C4 (witness): the views rule applied to the pair (cexB, cexA), whose
ratio 100/72 exceeds 1.3. -/
theorem claim_C4_witness :
    cmpVideos cexB cexA = (cexA.views : ℚ) - (cexB.views : ℚ) :=
  (claim_C4_views_rule cexB cexA ("1 day ago") ("1 day ago") rfl rfl).1
    (by decide)

theorem twentyPct_iff (av bv : ℕ) :
    |((bv : ℚ)) - (av : ℚ)| < (bv : ℚ) * 0.2 ↔ 5 * (max av bv - min av bv) < bv := by
  have h : ((bv : ℚ)) - (av : ℚ) = ((((bv : ℤ) - (av : ℤ)) : ℤ) : ℚ) := by
    push_cast; ring
  have habs : |((bv : ℚ)) - (av : ℚ)|
      = ((((bv : ℤ) - (av : ℤ)).natAbs : ℕ) : ℚ) := by
    rw [h, ← Int.cast_abs, Int.abs_eq_natAbs, Int.cast_natCast]
  rw [habs, show (0.2 : ℚ) = 1/5 by norm_num]
  have hmax : ((bv : ℤ) - (av : ℤ)).natAbs = max av bv - min av bv := by omega
  rw [hmax]
  constructor
  · intro hh
    have : ((5 * (max av bv - min av bv) : ℕ) : ℚ) < bv := by push_cast; linarith
    exact_mod_cast this
  · intro hh
    have : ((5 * (max av bv - min av bv) : ℕ) : ℚ) < bv := by exact_mod_cast hh
    push_cast at this
    linarith

/-- C5 (counterexample): cexNA and cexNB both lack recency; their view
difference 17 is below 20% of the larger count 100, so the claim requires
the shorter cexNB first in either presentation order; but the comparator
ranks cexNA first when the pair is presented as (cexNA, cexNB) (negative
value, views branch, because 17 is not below 20% of 83 = the second
argument's views), while presenting it as (cexNB, cexNA) takes the
duration branch — the threshold follows the second argument, not the
larger count. -/
theorem claim_C5_counterexample :
    5 * (max cexNA.views cexNB.views - min cexNA.views cexNB.views)
      < max cexNA.views cexNB.views
    ∧ cexNB.seconds < cexNA.seconds
    ∧ cexNA.ago = none ∧ cexNB.ago = none
    ∧ cmpVideos cexNA cexNB < 0
    ∧ cmpVideos cexNB cexNA < 0 := by
  refine ⟨by decide, by decide, rfl, rfl, ?_, ?_⟩
  · rw [cmp_cexNA_cexNB]; norm_num
  · rw [cmp_cexNB_cexNA]; norm_num

/-- C5 (amended): for candidates both lacking recency the comparator
orders by shorter duration exactly when the view difference is below 20%
of the second argument's view count (so the test depends on argument
order); otherwise it orders by view count descending. -/
theorem claim_C5_duration_rule (a b : Video)
    (ha : a.ago = none) (hb : b.ago = none) :
    (5 * (max a.views b.views - min a.views b.views) < b.views →
      cmpVideos a b = (a.seconds : ℚ) - (b.seconds : ℚ))
    ∧ (¬ (5 * (max a.views b.views - min a.views b.views) < b.views) →
      cmpVideos a b = (b.views : ℚ) - (a.views : ℚ)) := by
  have hiff := twentyPct_iff a.views b.views
  unfold cmpVideos
  rw [ha, hb]
  dsimp only
  constructor
  · intro h; rw [if_pos (hiff.mpr h)]
  · intro h; rw [if_neg (fun hc => h (hiff.mp hc))]

/-- C5 (witness): the duration rule applied to the pair (cexNB, cexNA),
where the difference 17 is below 20% of the second argument's count 100. -/
theorem claim_C5_witness :
    cmpVideos cexNB cexNA = (cexNB.seconds : ℚ) - (cexNA.seconds : ℚ) :=
  (claim_C5_duration_rule cexNB cexNA rfl rfl).1 (by decide)

/-! ## Claims about the orchestrator's candidate selection -/

/-- C1 (counterexample): with the search returning the candidates cexW1,
cexW2 in that raw order, the orchestrator downloads the url of cexW1,
although the ranking of §4.3 places cexW2 first; the ranked order is
computed by sortVideos, which the orchestrator never invokes. -/
theorem claim_C1_counterexample :
    (searchInYoutubeAndDownload cexEnv cexTrack ("dir")).1 = [(("u1"), ("dir"))]
    ∧ (sortVideos [cexW1, cexW2]).head? = some cexW2
    ∧ cexW2.url ≠ ("u1") := by
  refine ⟨rfl, ?_, by decide⟩
  show (List.orderedInsert cmpLe cexW1 [cexW2]).head? = some cexW2
  rw [List.orderedInsert, if_neg]
  · rfl
  · show ¬ (cmpVideos cexW1 cexW2 ≤ 0)
    rw [cmp_cexW1_cexW2]
    norm_num

/-- C1 (amended): for every track fetch whose search yields a non-empty
result, the orchestrator passes the url of the first element of the raw
search result to downloadMp3; the candidate ranking of sortVideos plays no
part in the selection. -/
theorem claim_C1_downloads_raw_first (env : YoutubeEnv) (track : TrackInfo)
    (a : ArtistRef) (ar : List ArtistRef) (dir : String)
    (result : SearchResult) (v : Video) (vs : List Video)
    (hart : track.artists = a :: ar)
    (hsearch : env.search (track.name ++ " - " ++ a.name ++ " lyric")
      = .ok result)
    (hvids : result.videos = v :: vs) :
    (searchInYoutubeAndDownload env track dir).1 = [(v.url, dir)] := by
  unfold searchInYoutubeAndDownload searchBodyRun buildQuery
  rw [hart]
  dsimp only
  rw [hsearch]
  dsimp only
  rw [hvids]
  dsimp only [List.head?]
  cases env.downloadMp3 v.url dir <;> rfl

/-- C1 (witness): the amended statement at the concrete environment. -/
theorem claim_C1_witness :
    (searchInYoutubeAndDownload cexEnv cexTrack ("dir")).1 = [(cexW1.url, ("dir"))] :=
  claim_C1_downloads_raw_first cexEnv cexTrack
    { id := "a1", name := "Artist", href := "h" } [] ("dir")
    { videos := [cexW1, cexW2] } cexW1 [cexW2] rfl rfl rfl

/-! ## Claim C6: candidates without recency sort after all others -/

theorem cmpLe_agoR {x y : Video} (h : cmpLe x y) : agoR x y := by
  intro hx
  cases hy : y.ago with
  | none => rfl
  | some w =>
    exfalso
    unfold cmpLe cmpVideos at h
    rw [hx, hy] at h
    dsimp only at h
    norm_num at h

theorem not_cmpLe_agoR {x y : Video} (h : ¬ cmpLe x y) : agoR y x := by
  intro hy
  cases hx : x.ago with
  | none => rfl
  | some w =>
    exfalso
    apply h
    unfold cmpLe cmpVideos
    rw [hx, hy]
    dsimp only
    norm_num

theorem agoR_trans {x y z : Video} (h1 : agoR x y) (h2 : agoR y z) : agoR x z :=
  fun hx => h2 (h1 hx)

theorem pairwise_agoR_orderedInsert (a : Video) (l : List Video)
    (h : List.Pairwise agoR l) :
    List.Pairwise agoR (List.orderedInsert cmpLe a l) := by
  induction l with
  | nil => simp [List.orderedInsert]
  | cons b l ih =>
    obtain ⟨hb, hl⟩ := List.pairwise_cons.mp h
    rw [List.orderedInsert]
    by_cases hab : cmpLe a b
    · rw [if_pos hab]
      refine List.pairwise_cons.mpr ⟨?_, h⟩
      intro y hy
      rcases List.mem_cons.mp hy with rfl | hyl
      · exact cmpLe_agoR hab
      · exact agoR_trans (cmpLe_agoR hab) (hb y hyl)
    · rw [if_neg hab]
      refine List.pairwise_cons.mpr ⟨?_, ih hl⟩
      intro y hy
      rcases (List.mem_orderedInsert cmpLe).mp hy with rfl | hyl
      · exact not_cmpLe_agoR hab
      · exact hb y hyl

theorem pairwise_agoR_sortVideos (videos : List Video) :
    List.Pairwise agoR (sortVideos videos) := by
  induction videos with
  | nil => exact List.Pairwise.nil
  | cons v vs ih => exact pairwise_agoR_orderedInsert v (sortVideos vs) ih

/-- C6: in the output of sortVideos, every candidate with a known recency
is placed strictly before every candidate without one: an element without
recency is never followed by one with recency, so absent recency is never
treated as a zero age. -/
theorem claim_C6_unknown_recency_last (videos : List Video)
    (i j : Fin (sortVideos videos).length) (hij : (i : ℕ) ≤ (j : ℕ))
    (hi : ((sortVideos videos).get i).ago = none) :
    ((sortVideos videos).get j).ago = none := by
  rcases lt_or_eq_of_le hij with hlt | heq
  · exact List.pairwise_iff_get.mp (pairwise_agoR_sortVideos videos) i j hlt hi
  · rwa [← Fin.ext heq]

/-- C6 (witness): the theorem at a singleton list without recency. -/
theorem claim_C6_witness :
    ((sortVideos [cexNA]).get ⟨0, by decide⟩).ago = none :=
  claim_C6_unknown_recency_last [cexNA] ⟨0, by decide⟩ ⟨0, by decide⟩
    (by decide) rfl

/-! ## Claim C7: per-track failures are caught and isolated -/

theorem wrapper_ok (env : YoutubeEnv) (track : TrackInfo) (dir : String) :
    (searchInYoutubeAndDownload env track dir).2
      = .ok (searchOutcome env track dir) := by
  unfold searchInYoutubeAndDownload searchOutcome
  rcases h : searchBodyRun env track dir with ⟨tr, res⟩
  cases res <;> rfl

theorem promiseAll_ok (xs : List Outcome) :
    promiseAll (xs.map Except.ok) = .ok xs := by
  induction xs with
  | nil => rfl
  | cons x xs ih => simp [promiseAll, ih]

theorem factories_ok (env : YoutubeEnv) (dir : String) (ts : List TrackInfo) :
    promiseAll (ts.map (fun t => (searchInYoutubeAndDownload env t dir).2))
      = .ok (ts.map (fun t => searchOutcome env t dir)) := by
  have h : ts.map (fun t => (searchInYoutubeAndDownload env t dir).2)
      = (ts.map (fun t => searchOutcome env t dir)).map Except.ok := by
    rw [List.map_map]
    exact List.map_congr_left (fun t _ => wrapper_ok env t dir)
  rw [h, promiseAll_ok]

/-- C7: whatever the environment throws for whichever track, the per-track
operation resolves normally (the try/catch converts the thrown value into
an outcome), the promise of downloadMassive resolves — it never rejects to
its caller — and its execution log contains one orchestrator run for every
track of every visited page, so a failing track never cancels or blocks
the sibling fetches. -/
theorem claim_C7_failure_isolated (env : YoutubeEnv) (dir : String)
    (page : PlaylistResult) (rest : List PlaylistResult) :
    (∀ track, (searchInYoutubeAndDownload env track dir).2
        = .ok (searchOutcome env track dir))
    ∧ (downloadMassiveRun env dir page rest).ret
        = .ok (page.tracks.map (fun t => searchOutcome env t dir))
    ∧ (downloadMassiveRun env dir page rest).execLog
        = ((visitedPages page rest).reverse.map
            (fun p => p.tracks.map
              (fun t => (t.id, searchOutcome env t dir)))).flatten := by
  refine ⟨fun track => wrapper_ok env track dir, ?_⟩
  induction rest generalizing page with
  | nil =>
    simp [downloadMassiveRun, visitedPages, massivePageStep, factories_ok]
  | cons p ps ih =>
    by_cases hn : page.next = none
    · simp [downloadMassiveRun, visitedPages, massivePageStep, factories_ok, hn]
    · simp only [downloadMassiveRun, visitedPages, if_neg hn]
      rw [massivePageStep, (ih p).1]
      constructor
      · simp [factories_ok]
      · simp [(ih p).2, List.flatten_append]

/-! ## Claims about the URL grammars (C8 and C2) -/

theorem matchLit_append (lit rest : List Char) :
    matchLit lit (lit ++ rest) = some rest := by
  induction lit with
  | nil => rfl
  | cons l ls ih => simp [matchLit, ih]

theorem matchLit_some_eq {lit cs rest : List Char}
    (h : matchLit lit cs = some rest) : cs = lit ++ rest := by
  induction lit generalizing cs with
  | nil => cases h; rfl
  | cons l ls ih =>
    cases cs with
    | nil => cases h
    | cons c cs =>
      by_cases hc : c = l
      · subst hc
        rw [matchLit, if_pos rfl] at h
        rw [List.cons_append, ih h]
      · rw [matchLit, if_neg hc] at h
        cases h

theorem span_exact (p : Char → Bool) (run rest : List Char)
    (hall : ∀ c ∈ run, p c = true)
    (hrest : ∀ c, rest.head? = some c → p c = false) :
    (run ++ rest).takeWhile p = run ∧ (run ++ rest).dropWhile p = rest := by
  induction run with
  | nil =>
    cases rest with
    | nil => exact ⟨rfl, rfl⟩
    | cons c cs =>
      have hc := hrest c rfl
      simp [List.takeWhile, List.dropWhile, hc]
  | cons a run ih =>
    have ha := hall a (by simp)
    have ih2 := ih (fun c hc => hall c (by simp [hc]))
    simp [List.takeWhile, List.dropWhile, ha, ih2.1, ih2.2]

theorem takeWhile1_exact (p : Char → Bool) (run rest : List Char)
    (hne : run ≠ []) (hall : ∀ c ∈ run, p c = true)
    (hrest : ∀ c, rest.head? = some c → p c = false) :
    takeWhile1 p (run ++ rest) = some (run, rest) := by
  obtain ⟨h1, h2⟩ := span_exact p run rest hall hrest
  unfold takeWhile1
  rw [h1, h2]
  cases run with
  | nil => exact absurd rfl hne
  | cons a run => rfl

theorem webTail3_spec (kind id : String) (qtail : List Char)
    (hk : kind.data ≠ []) (hkl : ∀ c ∈ kind.data, isLowerAZ c = true)
    (hidlen : id.data.length = 22) (hidc : ∀ c ∈ id.data, isIdChar c = true)
    (hq : qtail = [] ∨ ∃ qs, qtail = '?' :: qs ∧ ∀ c ∈ qs, isLineTerm c = false) :
    webTail3 (kind.data ++ '/' :: (id.data ++ qtail)) = some (kind, id) := by
  unfold webTail3
  rw [takeWhile1_exact isLowerAZ kind.data ('/' :: (id.data ++ qtail)) hk hkl
    (fun c hc => by cases hc; decide)]
  dsimp only
  rw [if_pos rfl]
  have htake : (id.data ++ qtail).take 22 = id.data := by
    rw [← hidlen]; exact List.take_left _ _
  have hdrop : (id.data ++ qtail).drop 22 = qtail := by
    rw [← hidlen]; exact List.drop_left _ _
  rw [htake, hdrop]
  have hall : id.data.all isIdChar = true := List.all_eq_true.mpr hidc
  rw [if_pos (by simp [hidlen, hall])]
  rcases hq with rfl | ⟨qs, rfl, hqs⟩
  · rfl
  · dsimp only
    rw [if_pos rfl, if_pos (by simpa using hqs)]

theorem intl_no_match (ks rest : List Char)
    (hkl : ∀ c ∈ ks, isLowerAZ c = true) :
    matchLit (String.data ("intl-")) (ks ++ '/' :: rest) = none := by
  cases h : matchLit (String.data ("intl-")) (ks ++ '/' :: rest) with
  | none => rfl
  | some r =>
    exfalso
    have heq := matchLit_some_eq h
    have hil : String.data ("intl-") = ['i', 'n', 't', 'l', '-'] := rfl
    rw [hil] at heq
    rcases ks with _ | ⟨a, _ | ⟨b, _ | ⟨c, _ | ⟨d, _ | ⟨e, ks5⟩⟩⟩⟩⟩ <;>
      simp only [List.cons_append, List.nil_append, List.cons.injEq] at heq
    · exact absurd heq.1 (by decide)
    · exact absurd heq.2.1 (by decide)
    · exact absurd heq.2.2.1 (by decide)
    · exact absurd heq.2.2.2.1 (by decide)
    · exact absurd heq.2.2.2.2.1 (by decide)
    · have hl := hkl e (by simp)
      rw [heq.2.2.2.2.1] at hl
      exact absurd hl (by decide)

theorem webTail2_no_locale (kind id : String) (qtail : List Char)
    (hk : kind.data ≠ []) (hkl : ∀ c ∈ kind.data, isLowerAZ c = true)
    (hidlen : id.data.length = 22) (hidc : ∀ c ∈ id.data, isIdChar c = true)
    (hq : qtail = [] ∨ ∃ qs, qtail = '?' :: qs ∧ ∀ c ∈ qs, isLineTerm c = false) :
    webTail2 (kind.data ++ '/' :: (id.data ++ qtail)) = some (kind, id) := by
  unfold webTail2
  rw [intl_no_match kind.data (id.data ++ qtail) hkl]
  simp only [Option.none_bind, Option.none_orElse]
  exact webTail3_spec kind id qtail hk hkl hidlen hidc hq

theorem webTail2_locale (loc kind id : String) (qtail : List Char)
    (hlne : loc.data ≠ []) (hll : ∀ c ∈ loc.data, isLowerAZ c = true)
    (hk : kind.data ≠ []) (hkl : ∀ c ∈ kind.data, isLowerAZ c = true)
    (hidlen : id.data.length = 22) (hidc : ∀ c ∈ id.data, isIdChar c = true)
    (hq : qtail = [] ∨ ∃ qs, qtail = '?' :: qs ∧ ∀ c ∈ qs, isLineTerm c = false) :
    webTail2 (String.data ("intl-") ++ (loc.data ++ '/' ::
      (kind.data ++ '/' :: (id.data ++ qtail)))) = some (kind, id) := by
  unfold webTail2
  rw [matchLit_append]
  rw [Option.some_bind]
  rw [takeWhile1_exact isLowerAZ loc.data ('/' :: (kind.data ++ '/' :: (id.data ++ qtail)))
    hlne hll (fun c hc => by cases hc; decide)]
  rw [Option.some_bind]
  dsimp only
  rw [if_pos rfl]
  rw [webTail3_spec kind id qtail hk hkl hidlen hidc hq]
  rfl

theorem webTail1_spec (tail : List Char) :
    webTail1 (String.data ("spotify.com/") ++ tail) = webTail2 tail := by
  unfold webTail1
  rw [matchLit_append, Option.some_bind]

theorem webTail0_open (tail : List Char) (r : String × String)
    (h : webTail1 tail = some r) :
    webTail0 (String.data ("open.") ++ tail) = some r := by
  unfold webTail0
  rw [matchLit_append, Option.some_bind, h]
  rfl

theorem webTail0_noopen (tail : List Char) :
    webTail0 (String.data ("spotify.com/") ++ tail)
      = webTail1 (String.data ("spotify.com/") ++ tail) := by
  unfold webTail0
  rw [show String.data ("spotify.com/") ++ tail
    = 's' :: (String.data ("potify.com/") ++ tail) from rfl]
  rw [show String.data ("open.") = 'o' :: String.data ("pen.") from rfl]
  rw [matchLit, if_neg (by decide)]
  rfl

theorem matchWebAt_secure (tail : List Char) (r : String × String)
    (h : webTail0 tail = some r) :
    matchWebAt (String.data ("https://") ++ tail) = some r := by
  unfold matchWebAt
  rw [show String.data ("https://") ++ tail
    = String.data ("http") ++ (String.data ("s://") ++ tail) from rfl]
  rw [matchLit_append, Option.some_bind, matchLit_append, Option.some_bind, h]
  rfl

theorem matchWebAt_insecure (tail : List Char) :
    matchWebAt (String.data ("http://") ++ tail) = webTail0 tail := by
  unfold matchWebAt
  rw [show String.data ("http://") ++ tail
    = String.data ("http") ++ (String.data ("://") ++ tail) from rfl]
  rw [matchLit_append, Option.some_bind]
  rw [show String.data ("://") ++ tail = ':' :: (String.data ("//") ++ tail) from rfl]
  rw [show String.data ("s://") = 's' :: String.data ("://") from rfl]
  rw [matchLit, if_neg (by decide)]
  rw [show ':' :: (String.data ("//") ++ tail) = String.data ("://") ++ tail from rfl]
  rw [matchLit_append, Option.some_bind]
  rfl

theorem searchWeb_of_matchWebAt (cs : List Char) (r : String × String)
    (h : matchWebAt cs = some r) : searchWeb cs = some r := by
  cases cs with
  | nil => rw [searchWeb, h]
  | cons c rest => rw [searchWeb, h]

theorem searchWeb_mkWebUrl (secure openSub : Bool) (locale : Option String)
    (kind id : String) (query : Option String)
    (hk : kind.data ≠ []) (hkl : ∀ c ∈ kind.data, isLowerAZ c = true)
    (hloc : ∀ l, locale = some l → l.data ≠ [] ∧ ∀ c ∈ l.data, isLowerAZ c = true)
    (hidlen : id.data.length = 22) (hidc : ∀ c ∈ id.data, isIdChar c = true)
    (hquery : ∀ q, query = some q → ∀ c ∈ q.data, isLineTerm c = false) :
    searchWeb (mkWebUrl secure openSub locale kind id query).data
      = some (kind, id) := by
  have hq : qtailOf query = []
      ∨ ∃ qs, qtailOf query = '?' :: qs ∧ ∀ c ∈ qs, isLineTerm c = false := by
    cases query with
    | none => exact Or.inl rfl
    | some q => exact Or.inr ⟨q.data, rfl, hquery q rfl⟩
  have h2 : webTail2 (locTailOf locale
      (kind.data ++ ('/' :: (id.data ++ qtailOf query)))) = some (kind, id) := by
    cases locale with
    | none => exact webTail2_no_locale kind id _ hk hkl hidlen hidc hq
    | some l =>
      obtain ⟨hlne, hll⟩ := hloc l rfl
      exact webTail2_locale l kind id _ hlne hll hk hkl hidlen hidc hq
  have h1 := (webTail1_spec (locTailOf locale
      (kind.data ++ ('/' :: (id.data ++ qtailOf query))))).trans h2
  cases secure <;> cases openSub
  · exact searchWeb_of_matchWebAt _ _ ((matchWebAt_insecure _).trans
      ((webTail0_noopen _).trans h1))
  · exact searchWeb_of_matchWebAt _ _ ((matchWebAt_insecure _).trans
      (webTail0_open _ _ h1))
  · exact searchWeb_of_matchWebAt _ _ (matchWebAt_secure _ _
      ((webTail0_noopen _).trans h1))
  · exact searchWeb_of_matchWebAt _ _ (matchWebAt_secure _ _
      (webTail0_open _ _ h1))

theorem matchWebAt_slash {cs : List Char} {r : String × String}
    (h : matchWebAt cs = some r) : '/' ∈ cs := by
  unfold matchWebAt at h
  rw [Option.bind_eq_some] at h
  obtain ⟨cs1, hlit, hrest⟩ := h
  have hcs := matchLit_some_eq hlit
  subst hcs
  cases h1 : Option.bind (matchLit (String.data ("s://")) cs1) webTail0 with
  | some r2 =>
    rw [Option.bind_eq_some] at h1
    obtain ⟨cs2, hlit2, _⟩ := h1
    have := matchLit_some_eq hlit2
    subst this
    simp
  | none =>
    rw [h1] at hrest
    have hrest2 : (matchLit (String.data ("://")) cs1).bind webTail0 = some r := hrest
    rw [Option.bind_eq_some] at hrest2
    obtain ⟨cs2, hlit2, _⟩ := hrest2
    have := matchLit_some_eq hlit2
    subst this
    simp

theorem searchWeb_no_slash (cs : List Char) (h : '/' ∉ cs) :
    searchWeb cs = none := by
  induction cs with
  | nil => rfl
  | cons c rest ih =>
    rw [searchWeb]
    cases hm : matchWebAt (c :: rest) with
    | some r => exact absurd (matchWebAt_slash hm) h
    | none => exact ih (fun hmem => h (List.mem_cons_of_mem c hmem))

theorem mkUri_no_slash (kind id : String)
    (hkl : ∀ c ∈ kind.data, isLowerAZ c = true)
    (hidc : ∀ c ∈ id.data, isIdChar c = true) :
    '/' ∉ (mkUri kind id).data := by
  intro h
  simp only [mkUri, List.mem_append, List.mem_cons] at h
  rcases h with h | h | h | h
  · revert h; decide
  · exact absurd (hkl _ h) (by decide)
  · exact absurd h (by decide)
  · exact absurd (hidc _ h) (by decide)

theorem matchUri_spec (kind id : String)
    (hk : kind.data ≠ []) (hkl : ∀ c ∈ kind.data, isLowerAZ c = true)
    (hidlen : id.data.length = 22) (hidc : ∀ c ∈ id.data, isIdChar c = true) :
    matchUri (mkUri kind id).data = some (kind, id) := by
  show matchUri (String.data ("spotify:") ++ (kind.data ++ (':' :: id.data)))
    = some (kind, id)
  unfold matchUri
  rw [matchLit_append, Option.some_bind]
  rw [takeWhile1_exact isLowerAZ kind.data (':' :: id.data) hk hkl
    (fun c hc => by cases hc; decide)]
  rw [Option.some_bind]
  dsimp only
  rw [if_pos rfl]
  have hall : id.data.all isIdChar = true := List.all_eq_true.mpr hidc
  rw [if_pos (by simp [hidlen, hall])]

theorem parse_mkWebUrl (secure openSub : Bool) (locale : Option String)
    (kind id : String) (query : Option String)
    (hk : kind.data ≠ []) (hkl : ∀ c ∈ kind.data, isLowerAZ c = true)
    (hloc : ∀ l, locale = some l → l.data ≠ [] ∧ ∀ c ∈ l.data, isLowerAZ c = true)
    (hidlen : id.data.length = 22) (hidc : ∀ c ∈ id.data, isIdChar c = true)
    (hquery : ∀ q, query = some q → ∀ c ∈ q.data, isLineTerm c = false) :
    parseSpotifyUrl (mkWebUrl secure openSub locale kind id query)
      = { type := if validTypes.contains kind then stringToType kind else .unknown
          id := id
          originalUrl := mkWebUrl secure openSub locale kind id query } := by
  unfold parseSpotifyUrl
  rw [searchWeb_mkWebUrl secure openSub locale kind id query
    hk hkl hloc hidlen hidc hquery]
  rfl

theorem parse_mkUri (kind id : String)
    (hk : kind.data ≠ []) (hkl : ∀ c ∈ kind.data, isLowerAZ c = true)
    (hidlen : id.data.length = 22) (hidc : ∀ c ∈ id.data, isIdChar c = true) :
    parseSpotifyUrl (mkUri kind id)
      = { type := if validTypes.contains kind then stringToType kind else .unknown
          id := id
          originalUrl := mkUri kind id } := by
  unfold parseSpotifyUrl
  rw [searchWeb_no_slash _ (mkUri_no_slash kind id hkl hidc),
    matchUri_spec kind id hk hkl hidlen hidc]
  rfl

/-- C8: every valid web-style URL — either scheme, with or without the
open subdomain, with or without a locale segment, with or without a
query suffix — resolves to its kind segment and its 22-character id, and
every valid uri-style reference resolves to the same pair; moreover
whenever the web grammar matches, the result of parseSpotifyUrl is
determined by that match alone — the web grammar is tried first and the
first matching grammar wins. -/
theorem claim_C8_valid_urls (secure openSub : Bool) (locale : Option String)
    (kind id : String) (query : Option String)
    (hkind : kind ∈ validTypes)
    (hloc : ∀ l, locale = some l → l.data ≠ [] ∧ ∀ c ∈ l.data, isLowerAZ c = true)
    (hidlen : id.data.length = 22) (hidc : ∀ c ∈ id.data, isIdChar c = true)
    (hquery : ∀ q, query = some q → ∀ c ∈ q.data, isLineTerm c = false) :
    parseSpotifyUrl (mkWebUrl secure openSub locale kind id query)
      = { type := stringToType kind
          id := id
          originalUrl := mkWebUrl secure openSub locale kind id query }
    ∧ parseSpotifyUrl (mkUri kind id)
      = { type := stringToType kind, id := id, originalUrl := mkUri kind id }
    ∧ (∀ (url : String) (m : String × String), searchWeb url.data = some m →
        parseSpotifyUrl url
          = { type := if validTypes.contains m.1
                then stringToType m.1 else .unknown
              id := m.2
              originalUrl := url }) := by
  have hk : kind.data ≠ [] ∧ (∀ c ∈ kind.data, isLowerAZ c = true) := by
    fin_cases hkind <;> exact ⟨by decide, by decide⟩
  have hcont : validTypes.contains kind = true := by
    fin_cases hkind <;> decide
  refine ⟨?_, ?_, ?_⟩
  · rw [parse_mkWebUrl secure openSub locale kind id query
      hk.1 hk.2 hloc hidlen hidc hquery, hcont, if_pos rfl]
  · rw [parse_mkUri kind id hk.1 hk.2 hidlen hidc, hcont, if_pos rfl]
  · intro url m h
    unfold parseSpotifyUrl
    rw [h]
    rfl

/-- C8 (witness): the end-to-end example of the specification, in both
grammars. -/
theorem claim_C8_witness :
    parseSpotifyUrl ("https://open.spotify.com/track/4iV5W9uYEdYUVa79Axb7Rh")
      = { type := .track
          id := "4iV5W9uYEdYUVa79Axb7Rh"
          originalUrl := "https://open.spotify.com/track/4iV5W9uYEdYUVa79Axb7Rh" }
    ∧ parseSpotifyUrl ("spotify:track:4iV5W9uYEdYUVa79Axb7Rh")
      = { type := .track
          id := "4iV5W9uYEdYUVa79Axb7Rh"
          originalUrl := "spotify:track:4iV5W9uYEdYUVa79Axb7Rh" } :=
  ⟨(claim_C8_valid_urls true true none ("track") ("4iV5W9uYEdYUVa79Axb7Rh") none
      (by decide) (fun l h => nomatch h) (by decide) (by decide)
      (fun q h => nomatch h)).1,
   (claim_C8_valid_urls true true none ("track") ("4iV5W9uYEdYUVa79Axb7Rh") none
      (by decide) (fun l h => nomatch h) (by decide) (by decide)
      (fun q h => nomatch h)).2.1⟩

/-- C2 (counterexample): the input matches the web grammar with the kind
segment show, which is not a valid kind, and parseSpotifyUrl does return
kind unknown — but the id of the result is the matched 22-character id,
not the empty string the claim requires. -/
theorem claim_C2_counterexample :
    (parseSpotifyUrl ("https://open.spotify.com/show/aaaaaaaaaaaaaaaaaaaaaa")).type
      = .unknown
    ∧ (parseSpotifyUrl ("https://open.spotify.com/show/aaaaaaaaaaaaaaaaaaaaaa")).id
      ≠ "" := by
  decide

/-- C2 (amended): for every input matching one of the two grammars with a
kind segment outside the valid set, parseSpotifyUrl returns kind Unknown,
the matched 22-character id — not the empty string — and the original
input as sourceUrl. -/
theorem claim_C2_invalid_kind (secure openSub : Bool) (locale : Option String)
    (kind id : String) (query : Option String)
    (hk : kind.data ≠ []) (hkl : ∀ c ∈ kind.data, isLowerAZ c = true)
    (hkinv : validTypes.contains kind = false)
    (hloc : ∀ l, locale = some l → l.data ≠ [] ∧ ∀ c ∈ l.data, isLowerAZ c = true)
    (hidlen : id.data.length = 22) (hidc : ∀ c ∈ id.data, isIdChar c = true)
    (hquery : ∀ q, query = some q → ∀ c ∈ q.data, isLineTerm c = false) :
    parseSpotifyUrl (mkWebUrl secure openSub locale kind id query)
      = { type := .unknown
          id := id
          originalUrl := mkWebUrl secure openSub locale kind id query }
    ∧ parseSpotifyUrl (mkUri kind id)
      = { type := .unknown, id := id, originalUrl := mkUri kind id } := by
  constructor
  · rw [parse_mkWebUrl secure openSub locale kind id query
      hk hkl hloc hidlen hidc hquery, hkinv, if_neg (by decide)]
  · rw [parse_mkUri kind id hk hkl hidlen hidc, hkinv, if_neg (by decide)]

/-- C2 (witness): the amended statement at the kind show. -/
theorem claim_C2_witness :
    parseSpotifyUrl (mkWebUrl true true none ("show") ("aaaaaaaaaaaaaaaaaaaaaa") none)
      = { type := .unknown
          id := "aaaaaaaaaaaaaaaaaaaaaa"
          originalUrl := mkWebUrl true true none ("show")
            ("aaaaaaaaaaaaaaaaaaaaaa") none } :=
  (claim_C2_invalid_kind true true none ("show") ("aaaaaaaaaaaaaaaaaaaaaa") none
    (by decide) (by decide) (by decide) (fun l h => nomatch h) (by decide)
    (by decide) (fun q h => nomatch h)).1

end SpotifyDL
